import Mathlib

/-!
Shallow embedding of the per-user task ownership and mutation contract of a
full-stack todo application.  The four REST handlers
(`GET /api/todos`, `POST /api/todos`, `PATCH /api/todos/[id]`,
`DELETE /api/todos/[id]`) are translated into pure Lean functions over an
explicit task store (the rows of the `todos` table).  Timestamps are
naturals (milliseconds since the epoch); the SQL `ORDER BY createdAt` of the
list endpoint is modelled by a sort on the `createdAt` key.
-/

namespace TodoApp

/-- A row of the `todos` table.  `description` is a nullable column. -/
structure Task where
  id : String
  title : String
  description : Option String
  completed : Bool
  userId : String
  createdAt : Nat
  updatedAt : Nat
deriving Repr, DecidableEq

/-- The task store: the rows of the `todos` table, in insertion order. -/
abbrev Store := List Task

/-- Error responses of the API: HTTP 401, 400 and 404.  The 404 body is the
constant `\x7b error: 'Todo not found' \x7d` for both the PATCH and the DELETE
handler, so a single constructor models it. -/
inductive ApiError where
  | unauthorized
  | validationError
  | notFound
deriving Repr, DecidableEq

/-- Body of `POST /api/todos`: `\x7b title, description? \x7d`.  `none` stands
for an absent or `null` JSON field. -/
structure CreateBody where
  title : Option String
  description : Option String
deriving Repr, DecidableEq

/-- Body of `PATCH /api/todos/[id]`: `\x7b title?, description?, completed? \x7d`.
For `title` and `completed` the handler applies `??`, which only
distinguishes nullish from non-nullish, so `none` stands for an absent or
`null` field.  For `description` the handler tests `!== undefined`, so
`none` stands for an absent field and `some none` for an explicit `null`. -/
structure PatchBody where
  title : Option String
  description : Option (Option String)
  completed : Option Bool
deriving Repr, DecidableEq

/-- Ordering on rows used by the list endpoint: `ORDER BY createdAt`
ascending. -/
def createdLE (a b : Task) : Prop :=
  a.createdAt ≤ b.createdAt

instance : DecidableRel createdLE :=
  fun a b => Nat.decLe a.createdAt b.createdAt

instance : IsTotal Task createdLE :=
  ⟨fun a b => Nat.le_total a.createdAt b.createdAt⟩

instance : IsTrans Task createdLE :=
  ⟨fun _ _ _ h h2 => Nat.le_trans h h2⟩

/-- Case `GET /api/todos`: with no session the handler returns 401;
otherwise it selects the rows with `userId = session.user.id`, ordered by
`createdAt` ascending, with no limit clause. -/
def getTodos (session : Option String) (store : Store) :
    Except ApiError (List Task) :=
  match session with
  | none => .error .unauthorized
  | some uid =>
      .ok (List.insertionSort createdLE (store.filter fun t => t.userId == uid))

/-- Case `POST /api/todos`: with no session 401; with a falsy `title`
(absent, `null`, or the empty string — `if (!title)`) 400; otherwise it
inserts exactly one row with `description: description || null`,
`completed: false`, `userId: session.user.id` and
`createdAt = updatedAt = now`, and returns the inserted row. -/
def createTodo (session : Option String) (store : Store) (body : CreateBody)
    (newId : String) (now : Nat) : Except ApiError (Task × Store) :=
  match session with
  | none => .error .unauthorized
  | some uid =>
      match body.title with
      | none => .error .validationError
      | some t =>
          if t = "" then .error .validationError
          else
            let task : Task :=
              { id := newId
                title := t
                description :=
                  match body.description with
                  | none => none
                  | some d => if d = "" then none else some d
                completed := false
                userId := uid
                createdAt := now
                updatedAt := now }
            .ok (task, store ++ [task])

/-- Row filter `and(eq(todos.id, tid), eq(todos.userId, uid))` shared by the
PATCH and DELETE handlers: the lookup is by id and owner in one predicate. -/
def ownedBy (tid uid : String) (t : Task) : Bool :=
  t.id == tid && t.userId == uid

/-- The `set` clause of the PATCH handler applied to one row:
`title: title ?? existing.title`,
`description: description !== undefined ? description : existing.description`,
`completed: completed ?? existing.completed`, `updatedAt: new Date()`. -/
def applyPatch (body : PatchBody) (now : Nat) (t : Task) : Task :=
  { t with
    title := body.title.getD t.title
    description :=
      match body.description with
      | none => t.description
      | some d => d
    completed := body.completed.getD t.completed
    updatedAt := now }

/-- Case `PATCH /api/todos/[id]`: with no session 401; then the row is
fetched filtered by both id and userId (`limit 1`), and a miss returns 404;
otherwise every row matching the same filter is updated with the `set`
clause and the first updated row is returned. -/
def updateTodo (session : Option String) (store : Store) (tid : String)
    (body : PatchBody) (now : Nat) : Except ApiError (Task × Store) :=
  match session with
  | none => .error .unauthorized
  | some uid =>
      match store.find? (ownedBy tid uid) with
      | none => .error .notFound
      | some t0 =>
          .ok (applyPatch body now t0,
            store.map fun t => if ownedBy tid uid t then applyPatch body now t else t)

/-- Case `DELETE /api/todos/[id]`: with no session 401; then the row is
fetched filtered by both id and userId, and a miss returns 404; otherwise
every row matching the filter is deleted and a confirmation is returned. -/
def deleteTodo (session : Option String) (store : Store) (tid : String) :
    Except ApiError Store :=
  match session with
  | none => .error .unauthorized
  | some uid =>
      match store.find? (ownedBy tid uid) with
      | none => .error .notFound
      | some _ => .ok (store.filter fun t => !(ownedBy tid uid t))

/-- One mutation request against the API. -/
inductive Op where
  | create (session : Option String) (body : CreateBody) (newId : String) (now : Nat)
  | update (session : Option String) (tid : String) (body : PatchBody) (now : Nat)
  | delete (session : Option String) (tid : String)
deriving Repr

/-- Effect of one request on the store; a failed request leaves the store
unchanged (each handler is a single statement, no partial mutation). -/
def step (store : Store) : Op → Store
  | .create s body nid now =>
      match createTodo s store body nid now with
      | .ok (_, st) => st
      | .error _ => store
  | .update s tid body now =>
      match updateTodo s store tid body now with
      | .ok (_, st) => st
      | .error _ => store
  | .delete s tid =>
      match deleteTodo s store tid with
      | .ok st => st
      | .error _ => store

/-- Run a sequence of requests against a store. -/
def run (store : Store) : List Op → Store
  | [] => store
  | op :: ops => run (step store op) ops

/-- The wall-clock reading a request observes, when it observes one. -/
def opNow : Op → Option Nat
  | .create _ _ _ now => some now
  | .update _ _ _ now => some now
  | .delete _ _ => none

/-- The wall-clock readings along a request sequence are nondecreasing,
starting from a lower bound `c`. -/
def clockLE (c : Nat) : List Op → Bool
  | [] => true
  | op :: ops =>
      match opNow op with
      | none => clockLE c ops
      | some n => decide (c ≤ n) && clockLE n ops

/-! ### Helper lemmas -/

theorem ownedBy_eq_true {tid uid : String} {t : Task} :
    ownedBy tid uid t = true ↔ t.id = tid ∧ t.userId = uid := by
  simp [ownedBy]

theorem createTodo_ok {uid nid : String} {store : Store} {body : CreateBody}
    {now : Nat} {task : Task} {st : Store}
    (h : createTodo (some uid) store body nid now = Except.ok (task, st)) :
    body.title = some task.title ∧ task.title ≠ "" ∧ task.id = nid ∧
    task.userId = uid ∧ task.completed = false ∧ task.createdAt = now ∧
    task.updatedAt = now ∧
    task.description =
      (match body.description with
       | none => none
       | some d => if d = "" then none else some d) ∧
    st = store ++ [task] := by
  cases hb : body.title with
  | none => simp [createTodo, hb] at h
  | some t =>
      by_cases ht : t = ""
      · simp [createTodo, hb, ht] at h
      · simp only [createTodo, hb, if_neg ht, Except.ok.injEq, Prod.mk.injEq] at h
        obtain ⟨h1, h2⟩ := h
        subst h1
        subst h2
        exact ⟨rfl, ht, rfl, rfl, rfl, rfl, rfl, rfl, rfl⟩

theorem updateTodo_ok {uid tid : String} {store : Store} {body : PatchBody}
    {now : Nat} {task : Task} {st : Store}
    (h : updateTodo (some uid) store tid body now = Except.ok (task, st)) :
    ∃ t0, store.find? (ownedBy tid uid) = some t0 ∧
      task = applyPatch body now t0 ∧
      st = store.map fun t => if ownedBy tid uid t then applyPatch body now t else t := by
  cases hf : store.find? (ownedBy tid uid) with
  | none => simp [updateTodo, hf] at h
  | some t0 =>
      simp only [updateTodo, hf, Except.ok.injEq, Prod.mk.injEq] at h
      exact ⟨t0, rfl, h.1.symm, h.2.symm⟩

theorem deleteTodo_ok {uid tid : String} {store : Store} {st : Store}
    (h : deleteTodo (some uid) store tid = Except.ok st) :
    st = store.filter fun t => !(ownedBy tid uid t) := by
  cases hf : store.find? (ownedBy tid uid) with
  | none => simp [deleteTodo, hf] at h
  | some t0 =>
      simp only [deleteTodo, hf, Except.ok.injEq] at h
      exact h.symm

/-! ### Claims -/

/-- C2: for an authenticated Update or Delete where no task with the given
id is owned by the caller — whether the id is absent from the store
altogether or present but owned by a different user — both handlers return
the `notFound` (HTTP 404) response.  Since the result is the same constant
in both situations, a task owned by another user is indistinguishable from
a nonexistent task. -/
theorem update_delete_notFound (uid tid : String) (store : Store)
    (body : PatchBody) (now : Nat)
    (h : ∀ t ∈ store, ¬(t.id = tid ∧ t.userId = uid)) :
    updateTodo (some uid) store tid body now = Except.error ApiError.notFound ∧
    deleteTodo (some uid) store tid = Except.error ApiError.notFound := by
  have hf : store.find? (ownedBy tid uid) = none := by
    rw [List.find?_eq_none]
    intro t ht
    rw [ownedBy_eq_true]
    exact h t ht
  constructor
  · simp [updateTodo, hf]
  · simp [deleteTodo, hf]

/-- C2 witness: principal `u1` targets the task `b` of user `u2`; both
handlers answer 404. -/
theorem update_delete_notFound_witness :
    (∀ t ∈ [(⟨"b", "Walk", none, false, "u2", 5, 5⟩ : Task)],
      ¬(t.id = "b" ∧ t.userId = "u1")) ∧
    updateTodo (some "u1") [⟨"b", "Walk", none, false, "u2", 5, 5⟩] "b"
      ⟨some "z", none, none⟩ 12 = Except.error ApiError.notFound ∧
    deleteTodo (some "u1") [⟨"b", "Walk", none, false, "u2", 5, 5⟩] "b"
      = Except.error ApiError.notFound :=
  ⟨by decide,
    update_delete_notFound "u1" "b" [⟨"b", "Walk", none, false, "u2", 5, 5⟩]
      ⟨some "z", none, none⟩ 12 (by decide)⟩

/-- C5: a successful Create by principal `uid` yields a task with
`userId = uid`, `completed = false`, `createdAt = updatedAt = now`, and the
store grows by exactly the one new row, appended. -/
theorem create_success_fields (uid nid : String) (store : Store)
    (body : CreateBody) (now : Nat) (task : Task) (st : Store)
    (h : createTodo (some uid) store body nid now = Except.ok (task, st)) :
    task.userId = uid ∧ task.completed = false ∧ task.createdAt = now ∧
    task.updatedAt = now ∧ st = store ++ [task] ∧
    st.length = store.length + 1 := by
  obtain ⟨-, -, -, h4, h5, h6, h7, -, h9⟩ := createTodo_ok h
  exact ⟨h4, h5, h6, h7, h9, by simp [h9]⟩

/-- C5 witness: `u1` creates the task `Buy milk` into an empty store at
time 3. -/
theorem create_success_fields_witness :
    createTodo (some "u1") [] ⟨some "Buy milk", none⟩ "a" 3
      = Except.ok (⟨"a", "Buy milk", none, false, "u1", 3, 3⟩,
        [⟨"a", "Buy milk", none, false, "u1", 3, 3⟩]) ∧
    ((⟨"a", "Buy milk", none, false, "u1", 3, 3⟩ : Task).userId = "u1" ∧
      (⟨"a", "Buy milk", none, false, "u1", 3, 3⟩ : Task).completed = false ∧
      (⟨"a", "Buy milk", none, false, "u1", 3, 3⟩ : Task).createdAt = 3 ∧
      (⟨"a", "Buy milk", none, false, "u1", 3, 3⟩ : Task).updatedAt = 3 ∧
      [(⟨"a", "Buy milk", none, false, "u1", 3, 3⟩ : Task)]
        = [] ++ [⟨"a", "Buy milk", none, false, "u1", 3, 3⟩] ∧
      [(⟨"a", "Buy milk", none, false, "u1", 3, 3⟩ : Task)].length
        = List.length ([] : List Task) + 1) :=
  ⟨rfl, create_success_fields "u1" "a" [] ⟨some "Buy milk", none⟩ 3
    ⟨"a", "Buy milk", none, false, "u1", 3, 3⟩
    [⟨"a", "Buy milk", none, false, "u1", 3, 3⟩] rfl⟩

/-- C7: a Create whose title is absent (or `null`) or the empty string is
rejected with `validationError` (HTTP 400), and the store is unchanged: no
row is persisted. -/
theorem create_emptyTitle_rejected (uid nid : String) (store : Store)
    (body : CreateBody) (now : Nat)
    (h : body.title = none ∨ body.title = some "") :
    createTodo (some uid) store body nid now
      = Except.error ApiError.validationError ∧
    step store (.create (some uid) body nid now) = store := by
  rcases h with h | h
  · constructor
    · simp [createTodo, h]
    · simp [step, createTodo, h]
  · constructor
    · simp [createTodo, h]
    · simp [step, createTodo, h]

/-- C7 witness: creating with an empty title against a one-row store is a
400 and leaves the store as it was. -/
theorem create_emptyTitle_rejected_witness :
    ((⟨some "", some "x"⟩ : CreateBody).title = none ∨
      (⟨some "", some "x"⟩ : CreateBody).title = some "") ∧
    createTodo (some "u1") [⟨"a", "Buy milk", none, false, "u1", 3, 3⟩]
        ⟨some "", some "x"⟩ "b" 9
      = Except.error ApiError.validationError ∧
    step [(⟨"a", "Buy milk", none, false, "u1", 3, 3⟩ : Task)]
        (.create (some "u1") ⟨some "", some "x"⟩ "b" 9)
      = [⟨"a", "Buy milk", none, false, "u1", 3, 3⟩] :=
  ⟨Or.inr rfl,
    create_emptyTitle_rejected "u1" "b" [⟨"a", "Buy milk", none, false, "u1", 3, 3⟩]
      ⟨some "", some "x"⟩ 9 (Or.inr rfl)⟩

/-- C9: after a successful Delete, a second Delete of the same id by the
same principal answers `notFound` (HTTP 404), not success. -/
theorem delete_twice_notFound (uid tid : String) (store st : Store)
    (h : deleteTodo (some uid) store tid = Except.ok st) :
    deleteTodo (some uid) st tid = Except.error ApiError.notFound := by
  have hst := deleteTodo_ok h
  subst hst
  have hf : (store.filter fun t => !(ownedBy tid uid t)).find? (ownedBy tid uid)
      = none := by
    rw [List.find?_eq_none]
    intro x hx
    have hxf := (List.mem_filter.mp hx).2
    simp only [Bool.not_eq_true'] at hxf
    simp [hxf]
  simp [deleteTodo, hf]

/-- C9 witness: `u1` deletes the task `a` and a repeated delete of `a`
answers 404. -/
theorem delete_twice_notFound_witness :
    deleteTodo (some "u1") [⟨"a", "Buy milk", none, false, "u1", 3, 3⟩] "a"
      = Except.ok [] ∧
    deleteTodo (some "u1") [] "a" = Except.error ApiError.notFound :=
  ⟨rfl,
    delete_twice_notFound "u1" "a" [⟨"a", "Buy milk", none, false, "u1", 3, 3⟩]
      [] rfl⟩

/-- C10: a successful Create never stores the empty string as description:
a provided empty or absent (falsy) description is normalised
(`description || null`) to the null value. -/
theorem create_description_normalised (uid nid : String) (store : Store)
    (body : CreateBody) (now : Nat) (task : Task) (st : Store)
    (h : createTodo (some uid) store body nid now = Except.ok (task, st)) :
    task.description ≠ some "" ∧
    ((body.description = none ∨ body.description = some "") →
      task.description = none) := by
  obtain ⟨-, -, -, -, -, -, -, h8, -⟩ := createTodo_ok h
  constructor
  · rw [h8]
    cases hd : body.description with
    | none => simp
    | some d => by_cases hde : d = "" <;> simp [hde]
  · rintro (hd | hd) <;> simp [h8, hd]

/-- C10 witness: `u1` creates a task with an explicitly empty description;
the stored description is null. -/
theorem create_description_normalised_witness :
    createTodo (some "u1") [] ⟨some "T", some ""⟩ "x" 7
      = Except.ok (⟨"x", "T", none, false, "u1", 7, 7⟩,
        [⟨"x", "T", none, false, "u1", 7, 7⟩]) ∧
    ((⟨"x", "T", none, false, "u1", 7, 7⟩ : Task).description ≠ some "" ∧
      (((⟨some "T", some ""⟩ : CreateBody).description = none ∨
        (⟨some "T", some ""⟩ : CreateBody).description = some "") →
        (⟨"x", "T", none, false, "u1", 7, 7⟩ : Task).description = none)) :=
  ⟨rfl, create_description_normalised "u1" "x" [] ⟨some "T", some ""⟩ 7
    ⟨"x", "T", none, false, "u1", 7, 7⟩
    [⟨"x", "T", none, false, "u1", 7, 7⟩] rfl⟩

/-- C1 counterexample: the PATCH handler guards its title only with `??`,
which does not catch the empty string, so an Update whose patch carries
`title: ""` on an owned task succeeds (HTTP 200) and stores the empty
title — refuting the claim that the title is non-empty after every
successful update. -/
theorem update_emptyTitle_succeeds_cex :
    updateTodo (some "u1") [⟨"a", "Buy milk", none, false, "u1", 10, 10⟩] "a"
        ⟨some "", none, none⟩ 12
      = Except.ok (⟨"a", "", none, false, "u1", 10, 12⟩,
        [⟨"a", "", none, false, "u1", 10, 12⟩]) ∧
    (⟨"a", "", none, false, "u1", 10, 12⟩ : Task).title = "" :=
  ⟨rfl, rfl⟩

/-- C1 (amended): after a successful Create the title is non-empty; after a
successful Update the returned task and every stored task have a non-empty
title provided the patch's title is not the empty string and the store's
titles were non-empty beforehand.  (An Update whose patch carries the empty
string as title succeeds and stores it, see the counterexample.) -/
theorem title_nonempty_amended (uid : String) :
    (∀ (store : Store) (body : CreateBody) (nid : String) (now : Nat)
        (task : Task) (st : Store),
      createTodo (some uid) store body nid now = Except.ok (task, st) →
      task.title ≠ "") ∧
    (∀ (store : Store) (tid : String) (body : PatchBody) (now : Nat)
        (task : Task) (st : Store),
      body.title ≠ some "" →
      (∀ t ∈ store, t.title ≠ "") →
      updateTodo (some uid) store tid body now = Except.ok (task, st) →
      task.title ≠ "" ∧ ∀ t ∈ st, t.title ≠ "") := by
  constructor
  · intro store body nid now task st h
    exact (createTodo_ok h).2.1
  · intro store tid body now task st hbt hstore h
    obtain ⟨t0, hf, htask, hst⟩ := updateTodo_ok h
    have hpatch : ∀ t : Task, t.title ≠ "" → (applyPatch body now t).title ≠ "" := by
      intro t ht
      cases hb : body.title with
      | none => simpa [applyPatch, hb] using ht
      | some s =>
          have hs : s ≠ "" := fun hc => hbt (by rw [hb, hc])
          simpa [applyPatch, hb] using hs
    constructor
    · exact htask ▸ hpatch t0 (hstore t0 (List.mem_of_find?_eq_some hf))
    · intro t ht
      rw [hst] at ht
      obtain ⟨u, hu, hut⟩ := List.mem_map.mp ht
      by_cases hc : ownedBy tid uid u
      · rw [if_pos hc] at hut
        exact hut ▸ hpatch u (hstore u hu)
      · rw [if_neg hc] at hut
        exact hut ▸ hstore u hu

/-- C1 (amended) witness: creating `Buy milk` yields a non-empty title, and
an Update that patches only `completed` on a store with non-empty titles
keeps every title non-empty. -/
theorem title_nonempty_amended_witness :
    createTodo (some "u1") [] ⟨some "Buy milk", none⟩ "a" 3
      = Except.ok (⟨"a", "Buy milk", none, false, "u1", 3, 3⟩,
        [⟨"a", "Buy milk", none, false, "u1", 3, 3⟩]) ∧
    (⟨"a", "Buy milk", none, false, "u1", 3, 3⟩ : Task).title ≠ "" ∧
    ((⟨"a", "Buy milk", none, false, "u1", 3, 3⟩ : Task).title ≠ "" ∧
      ∀ t ∈ [(⟨"a", "Buy milk", none, false, "u1", 3, 5⟩ : Task)], t.title ≠ "") ∧
    updateTodo (some "u1") [⟨"a", "Buy milk", none, false, "u1", 3, 3⟩] "a"
        ⟨none, none, none⟩ 5
      = Except.ok (⟨"a", "Buy milk", none, false, "u1", 3, 5⟩,
        [⟨"a", "Buy milk", none, false, "u1", 3, 5⟩]) :=
  ⟨rfl,
    (title_nonempty_amended "u1").1 [] ⟨some "Buy milk", none⟩ "a" 3
      ⟨"a", "Buy milk", none, false, "u1", 3, 3⟩
      [⟨"a", "Buy milk", none, false, "u1", 3, 3⟩] rfl,
    by
      have hupd := (title_nonempty_amended "u1").2
        [⟨"a", "Buy milk", none, false, "u1", 3, 3⟩] "a" ⟨none, none, none⟩ 5
        ⟨"a", "Buy milk", none, false, "u1", 3, 5⟩
        [⟨"a", "Buy milk", none, false, "u1", 3, 5⟩]
        (by decide) (by decide) rfl
      exact ⟨hupd.1, fun t ht => hupd.2 t ht⟩,
    rfl⟩

/-- C3: a successful Update leaves the row identity intact: the returned
task keeps the id, owner and creation time of the stored row it patched
(the owner being the authenticated principal), and the id, userId and
createdAt of every row of the store are unchanged. -/
theorem update_frame (uid tid : String) (store : Store) (body : PatchBody)
    (now : Nat) (task : Task) (st : Store) (t0 : Task)
    (hf : store.find? (ownedBy tid uid) = some t0)
    (h : updateTodo (some uid) store tid body now = Except.ok (task, st)) :
    task.id = t0.id ∧ task.userId = t0.userId ∧
    task.createdAt = t0.createdAt ∧ task.userId = uid ∧ t0 ∈ store ∧
    st.map (fun t => (t.id, t.userId, t.createdAt))
      = store.map fun t => (t.id, t.userId, t.createdAt) := by
  obtain ⟨t1, hf1, htask, hst⟩ := updateTodo_ok h
  rw [hf] at hf1
  injection hf1 with hf1
  subst hf1
  subst htask
  refine ⟨rfl, rfl, rfl, ?_, List.mem_of_find?_eq_some hf, ?_⟩
  · have hp := List.find?_some hf
    exact ((ownedBy_eq_true.mp hp).2 : t0.userId = uid)
  · rw [hst, List.map_map]
    apply List.map_congr_left
    intro t _
    by_cases hc : ownedBy tid uid t
    · simp [Function.comp, if_pos hc, applyPatch]
    · simp [Function.comp, if_neg hc]

/-- C3 witness: `u1` patches `completed` on task `a`; id, owner and
creation time survive. -/
theorem update_frame_witness :
    [(⟨"a", "Buy milk", none, false, "u1", 3, 3⟩ : Task)].find? (ownedBy "a" "u1")
      = some ⟨"a", "Buy milk", none, false, "u1", 3, 3⟩ ∧
    updateTodo (some "u1") [⟨"a", "Buy milk", none, false, "u1", 3, 3⟩] "a"
        ⟨none, none, some true⟩ 5
      = Except.ok (⟨"a", "Buy milk", none, true, "u1", 3, 5⟩,
        [⟨"a", "Buy milk", none, true, "u1", 3, 5⟩]) ∧
    ((⟨"a", "Buy milk", none, true, "u1", 3, 5⟩ : Task).id
        = (⟨"a", "Buy milk", none, false, "u1", 3, 3⟩ : Task).id ∧
      (⟨"a", "Buy milk", none, true, "u1", 3, 5⟩ : Task).userId
        = (⟨"a", "Buy milk", none, false, "u1", 3, 3⟩ : Task).userId ∧
      (⟨"a", "Buy milk", none, true, "u1", 3, 5⟩ : Task).createdAt
        = (⟨"a", "Buy milk", none, false, "u1", 3, 3⟩ : Task).createdAt ∧
      (⟨"a", "Buy milk", none, true, "u1", 3, 5⟩ : Task).userId = "u1" ∧
      (⟨"a", "Buy milk", none, false, "u1", 3, 3⟩ : Task)
        ∈ [(⟨"a", "Buy milk", none, false, "u1", 3, 3⟩ : Task)] ∧
      [(⟨"a", "Buy milk", none, true, "u1", 3, 5⟩ : Task)].map
          (fun t => (t.id, t.userId, t.createdAt))
        = [(⟨"a", "Buy milk", none, false, "u1", 3, 3⟩ : Task)].map
            fun t => (t.id, t.userId, t.createdAt)) :=
  ⟨rfl, rfl,
    update_frame "u1" "a" [⟨"a", "Buy milk", none, false, "u1", 3, 3⟩]
      ⟨none, none, some true⟩ 5 ⟨"a", "Buy milk", none, true, "u1", 3, 5⟩
      [⟨"a", "Buy milk", none, true, "u1", 3, 5⟩]
      ⟨"a", "Buy milk", none, false, "u1", 3, 3⟩ rfl rfl⟩

/-- C4: a successful Update applies exactly the provided patch fields to
the stored row and refreshes `updatedAt` to the current time: a provided
title, description or completed flag takes the patch value — for the
description this includes an explicit `null` (`some none`) and the empty
string, which are distinguished from an absent field — and every omitted
field keeps its prior value. -/
theorem update_applies_patch (uid tid : String) (store : Store)
    (body : PatchBody) (now : Nat) (task : Task) (st : Store) (t0 : Task)
    (hf : store.find? (ownedBy tid uid) = some t0)
    (h : updateTodo (some uid) store tid body now = Except.ok (task, st)) :
    (∀ s, body.title = some s → task.title = s) ∧
    (body.title = none → task.title = t0.title) ∧
    (∀ d, body.description = some d → task.description = d) ∧
    (body.description = none → task.description = t0.description) ∧
    (∀ b, body.completed = some b → task.completed = b) ∧
    (body.completed = none → task.completed = t0.completed) ∧
    task.updatedAt = now := by
  obtain ⟨t1, hf1, htask, -⟩ := updateTodo_ok h
  rw [hf] at hf1
  injection hf1 with hf1
  subst hf1
  subst htask
  refine ⟨?_, ?_, ?_, ?_, ?_, ?_, rfl⟩
  · intro s hs
    simp [applyPatch, hs]
  · intro hs
    simp [applyPatch, hs]
  · intro d hd
    simp [applyPatch, hd]
  · intro hd
    simp [applyPatch, hd]
  · intro b hb
    simp [applyPatch, hb]
  · intro hb
    simp [applyPatch, hb]

/-- C4 witness: a patch providing a new title, an explicit null description
and a completed flag is applied field by field, with `updatedAt` set to the
request time. -/
theorem update_applies_patch_witness :
    [(⟨"a", "Buy milk", some "d", false, "u1", 3, 3⟩ : Task)].find? (ownedBy "a" "u1")
      = some ⟨"a", "Buy milk", some "d", false, "u1", 3, 3⟩ ∧
    updateTodo (some "u1") [⟨"a", "Buy milk", some "d", false, "u1", 3, 3⟩] "a"
        ⟨some "New", some none, some true⟩ 9
      = Except.ok (⟨"a", "New", none, true, "u1", 3, 9⟩,
        [⟨"a", "New", none, true, "u1", 3, 9⟩]) ∧
    ((∀ s, (⟨some "New", some none, some true⟩ : PatchBody).title = some s →
        (⟨"a", "New", none, true, "u1", 3, 9⟩ : Task).title = s) ∧
      ((⟨some "New", some none, some true⟩ : PatchBody).title = none →
        (⟨"a", "New", none, true, "u1", 3, 9⟩ : Task).title
          = (⟨"a", "Buy milk", some "d", false, "u1", 3, 3⟩ : Task).title) ∧
      (∀ d, (⟨some "New", some none, some true⟩ : PatchBody).description = some d →
        (⟨"a", "New", none, true, "u1", 3, 9⟩ : Task).description = d) ∧
      ((⟨some "New", some none, some true⟩ : PatchBody).description = none →
        (⟨"a", "New", none, true, "u1", 3, 9⟩ : Task).description
          = (⟨"a", "Buy milk", some "d", false, "u1", 3, 3⟩ : Task).description) ∧
      (∀ b, (⟨some "New", some none, some true⟩ : PatchBody).completed = some b →
        (⟨"a", "New", none, true, "u1", 3, 9⟩ : Task).completed = b) ∧
      ((⟨some "New", some none, some true⟩ : PatchBody).completed = none →
        (⟨"a", "New", none, true, "u1", 3, 9⟩ : Task).completed
          = (⟨"a", "Buy milk", some "d", false, "u1", 3, 3⟩ : Task).completed) ∧
      (⟨"a", "New", none, true, "u1", 3, 9⟩ : Task).updatedAt = 9) :=
  ⟨rfl, rfl,
    update_applies_patch "u1" "a" [⟨"a", "Buy milk", some "d", false, "u1", 3, 3⟩]
      ⟨some "New", some none, some true⟩ 9 ⟨"a", "New", none, true, "u1", 3, 9⟩
      [⟨"a", "New", none, true, "u1", 3, 9⟩]
      ⟨"a", "Buy milk", some "d", false, "u1", 3, 3⟩ rfl rfl⟩

/-- C6: a successful List for principal `uid` returns only tasks owned by
`uid`, misses none of the stored tasks owned by `uid`, is sorted by
`createdAt` ascending, and is a permutation of the full owned subset of the
store (no pagination, nothing added or dropped). -/
theorem list_owned_sorted (uid : String) (store : Store) (l : List Task)
    (h : getTodos (some uid) store = Except.ok l) :
    (∀ t ∈ l, t.userId = uid) ∧
    (∀ t ∈ store, t.userId = uid → t ∈ l) ∧
    List.Sorted createdLE l ∧
    l.Perm (store.filter fun t => t.userId == uid) := by
  simp only [getTodos, Except.ok.injEq] at h
  subst h
  refine ⟨?_, ?_, List.sorted_insertionSort createdLE _,
    List.perm_insertionSort createdLE _⟩
  · intro t ht
    rw [List.mem_insertionSort] at ht
    exact eq_of_beq (List.mem_filter.mp ht).2
  · intro t ht hu
    rw [List.mem_insertionSort, List.mem_filter]
    exact ⟨ht, by simp [hu]⟩

/-- C6 witness: with a store holding two tasks of `u1` (created at 3 and
10) and one task of `u2`, the list for `u1` is exactly the two owned tasks
in creation order. -/
theorem list_owned_sorted_witness :
    getTodos (some "u1")
        [⟨"a", "Buy milk", none, false, "u1", 10, 10⟩,
          ⟨"b", "Walk", some "dog", false, "u2", 5, 5⟩,
          ⟨"c", "Read", none, true, "u1", 3, 4⟩]
      = Except.ok [⟨"c", "Read", none, true, "u1", 3, 4⟩,
          ⟨"a", "Buy milk", none, false, "u1", 10, 10⟩] ∧
    ((∀ t ∈ [(⟨"c", "Read", none, true, "u1", 3, 4⟩ : Task),
        ⟨"a", "Buy milk", none, false, "u1", 10, 10⟩], t.userId = "u1") ∧
      (∀ t ∈ [(⟨"a", "Buy milk", none, false, "u1", 10, 10⟩ : Task),
          ⟨"b", "Walk", some "dog", false, "u2", 5, 5⟩,
          ⟨"c", "Read", none, true, "u1", 3, 4⟩], t.userId = "u1" →
        t ∈ [(⟨"c", "Read", none, true, "u1", 3, 4⟩ : Task),
          ⟨"a", "Buy milk", none, false, "u1", 10, 10⟩]) ∧
      List.Sorted createdLE [(⟨"c", "Read", none, true, "u1", 3, 4⟩ : Task),
        ⟨"a", "Buy milk", none, false, "u1", 10, 10⟩] ∧
      List.Perm [(⟨"c", "Read", none, true, "u1", 3, 4⟩ : Task),
          ⟨"a", "Buy milk", none, false, "u1", 10, 10⟩]
        (List.filter (fun t => t.userId == "u1")
          [⟨"a", "Buy milk", none, false, "u1", 10, 10⟩,
            ⟨"b", "Walk", some "dog", false, "u2", 5, 5⟩,
            ⟨"c", "Read", none, true, "u1", 3, 4⟩])) :=
  ⟨rfl,
    list_owned_sorted "u1"
      [⟨"a", "Buy milk", none, false, "u1", 10, 10⟩,
        ⟨"b", "Walk", some "dog", false, "u2", 5, 5⟩,
        ⟨"c", "Read", none, true, "u1", 3, 4⟩]
      [⟨"c", "Read", none, true, "u1", 3, 4⟩,
        ⟨"a", "Buy milk", none, false, "u1", 10, 10⟩] rfl⟩

/-- Invariant tying the store to a clock bound `c`: every row satisfies
createdAt ≤ updatedAt and was last written no later than `c`. -/
def TimeInv (c : Nat) (store : Store) : Prop :=
  ∀ t ∈ store, t.createdAt ≤ t.updatedAt ∧ t.updatedAt ≤ c

theorem timeInv_mono {c c2 : Nat} {store : Store} (h : c ≤ c2)
    (hinv : TimeInv c store) : TimeInv c2 store :=
  fun t ht => ⟨(hinv t ht).1, Nat.le_trans (hinv t ht).2 h⟩

theorem timeInv_step {c n : Nat} {store : Store} {op : Op}
    (hop : opNow op = some n) (hc : c ≤ n) (hinv : TimeInv c store) :
    TimeInv n (step store op) := by
  cases op with
  | create s body nid now =>
      simp only [opNow, Option.some.injEq] at hop
      subst hop
      simp only [step]
      cases hres : createTodo s store body nid now with
      | error e => exact timeInv_mono hc hinv
      | ok p =>
          obtain ⟨task, st⟩ := p
          cases s with
          | none => simp [createTodo] at hres
          | some uid =>
              obtain ⟨-, -, -, -, -, h6, h7, -, h9⟩ := createTodo_ok hres
              subst h9
              intro t ht
              rcases List.mem_append.mp ht with ht | ht
              · exact ⟨(hinv t ht).1, Nat.le_trans (hinv t ht).2 hc⟩
              · have heq : t = task := List.mem_singleton.mp ht
                subst heq
                rw [h6, h7]
                exact ⟨Nat.le_refl _, Nat.le_refl _⟩
  | update s tid body now =>
      simp only [opNow, Option.some.injEq] at hop
      subst hop
      simp only [step]
      cases hres : updateTodo s store tid body now with
      | error e => exact timeInv_mono hc hinv
      | ok p =>
          obtain ⟨task, st⟩ := p
          cases s with
          | none => simp [updateTodo] at hres
          | some uid =>
              obtain ⟨t0, -, -, hst⟩ := updateTodo_ok hres
              subst hst
              intro t ht
              obtain ⟨u, hu, hut⟩ := List.mem_map.mp ht
              by_cases hcond : ownedBy tid uid u
              · rw [if_pos hcond] at hut
                subst hut
                refine ⟨?_, Nat.le_refl _⟩
                calc (applyPatch body now u).createdAt = u.createdAt := rfl
                  _ ≤ u.updatedAt := (hinv u hu).1
                  _ ≤ c := (hinv u hu).2
                  _ ≤ now := hc
              · rw [if_neg hcond] at hut
                subst hut
                exact ⟨(hinv u hu).1, Nat.le_trans (hinv u hu).2 hc⟩
  | delete s tid => simp [opNow] at hop

theorem timeInv_step_none {c : Nat} {store : Store} {op : Op}
    (hop : opNow op = none) (hinv : TimeInv c store) :
    TimeInv c (step store op) := by
  cases op with
  | create s body nid now => simp [opNow] at hop
  | update s tid body now => simp [opNow] at hop
  | delete s tid =>
      simp only [step]
      cases hres : deleteTodo s store tid with
      | error e => exact hinv
      | ok st =>
          cases s with
          | none => simp [deleteTodo] at hres
          | some uid =>
              rw [deleteTodo_ok hres]
              intro t ht
              exact hinv t (List.mem_filter.mp ht).1

theorem timeInv_run : ∀ (ops : List Op) (c : Nat) (store : Store),
    clockLE c ops = true → TimeInv c store →
    ∀ t ∈ run store ops, t.createdAt ≤ t.updatedAt := by
  intro ops
  induction ops with
  | nil =>
      intro c store _ hinv t ht
      exact (hinv t ht).1
  | cons op ops ih =>
      intro c store h hinv
      simp only [run]
      cases hop : opNow op with
      | none =>
          have h2 : clockLE c ops = true := by simpa [clockLE, hop] using h
          exact ih c (step store op) h2 (timeInv_step_none hop hinv)
      | some n =>
          have h2 : c ≤ n ∧ clockLE n ops = true := by
            simpa [clockLE, hop] using h
          exact ih n (step store op) h2.2 (timeInv_step hop h2.1 hinv)

/-- C8: along any sequence of requests whose wall-clock readings are
nondecreasing, every task of the resulting store satisfies
`createdAt ≤ updatedAt`: Create establishes the bound (both stamps are the
creation time) and every successful Update moves `updatedAt` forward to the
current time, never below `createdAt`. -/
theorem updatedAt_ge_createdAt (ops : List Op) (c : Nat)
    (h : clockLE c ops = true) :
    ∀ t ∈ run [] ops, t.createdAt ≤ t.updatedAt :=
  timeInv_run ops c [] h (fun t ht => absurd ht (List.not_mem_nil t))

/-- C8 witness: a create at time 3 followed by an update at time 5 leaves a
store whose only task satisfies the bound. -/
theorem updatedAt_ge_createdAt_witness :
    clockLE 0 [Op.create (some "u") ⟨some "m", none⟩ "a" 3,
      Op.update (some "u") "a" ⟨none, none, some true⟩ 5] = true ∧
    ∀ t ∈ run [] [Op.create (some "u") ⟨some "m", none⟩ "a" 3,
      Op.update (some "u") "a" ⟨none, none, some true⟩ 5],
      t.createdAt ≤ t.updatedAt :=
  ⟨rfl,
    updatedAt_ge_createdAt [Op.create (some "u") ⟨some "m", none⟩ "a" 3,
      Op.update (some "u") "a" ⟨none, none, some true⟩ 5] 0 rfl⟩

end TodoApp
